import Mathlib

/-!
Verification of the fakelibc formatted-output layer (src/fakelibc.c).

The file embeds the repository's C source shallowly:

* `do_printf` is the driving loop of every formatting call (src/fakelibc.c,
  lines 110-122).  The external `PrintfParser` interpreter is referenced but
  not defined in the source set, so the loop is embedded over an abstract
  parser interface `ParserModel`, and a concrete parser restricted to the
  directives the claims exercise is modelled from the spec.
* The variadic argument list is embedded two ways: as an infallible byte
  stream (`ArgStream`, matching C's `va_arg_ptr`, which cannot detect
  exhaustion) and as the spec's finite `ArgumentCursor` whose `pull` fails
  with `ArgumentExhausted` (`do_printf_checked`).
* The stub routines are embedded as total Lean functions returning either a
  value or a `panic_c` outcome, exactly as the C bodies do.

Runs of the loop are instrumented with an event trace so that the calling
protocol between `do_printf`, `va_arg_ptr`, `printf_parser_advance` and
`printf_parser_push_arg` can be stated and proved.
-/

namespace StreamOS

/-- Events observed during one run of the `do_printf` driving loop:
the result of a `printf_parser_advance` call, a `va_arg_ptr` pull of a
given byte width returning the given bytes, and a `printf_parser_push_arg`
call handing bytes to the parser. -/
inductive PEvent where
  | advance (r : Int)
  | vaArg (size : Int) (bytes : List UInt8)
  | pushArg (bytes : List UInt8)
deriving DecidableEq

/-- Abstract interface of the external PrintfParser (declared but not defined
in src/fakelibc.c): `advance` returns the updated parser and the `int32_t`
result of `printf_parser_advance`; `push_arg` hands the pulled argument bytes
to `printf_parser_push_arg`. -/
structure ParserModel (σ : Type) where
  advance : σ → σ × Int
  push_arg : σ → List UInt8 → σ

/-- The C `va_list`: an infallible stream of raw argument bytes together with
a read position.  `va_arg_ptr` can always produce bytes (it has no way to
detect exhaustion), which this embedding models with a total function. -/
structure ArgStream where
  data : Nat → UInt8
  pos : Nat

/-- Model of `va_arg_ptr(args, size)`: yields the next `size` bytes of the
argument stream and advances the position. -/
def va_arg_ptr (args : ArgStream) (size : Int) : List UInt8 × ArgStream :=
  ((List.range size.toNat).map (fun i => args.data (args.pos + i)),
   ⟨args.data, args.pos + size.toNat⟩)

/-- Whether a fuel-bounded run of the loop reached the `break` (advance
returned 0) or ran out of fuel first.  Fuel is an artifact of the embedding:
the C loop is `while (true)`. -/
inductive RunStatus where
  | done
  | outOfFuel
deriving DecidableEq

/-- Result of a run of the `do_printf` loop: final status, final parser
state, remaining argument stream, and the observed event trace. -/
structure RunOut (σ : Type) where
  status : RunStatus
  parser : σ
  args : ArgStream
  trace : List PEvent

/-- Embedding of `do_printf` (src/fakelibc.c lines 110-122):
repeatedly call `printf_parser_advance`; if the result is 0, break;
otherwise pull that many bytes with `va_arg_ptr` and hand them to
`printf_parser_push_arg`.  The C function also receives the format string
but its body never uses it, so the parameter is omitted here.  The loop is
embedded with fuel, recording the trace of calls it makes. -/
def do_printf {σ : Type} (P : ParserModel σ) : Nat → σ → ArgStream → RunOut σ
  | 0, s, args => ⟨RunStatus.outOfFuel, s, args, []⟩
  | fuel+1, s, args =>
    let res := P.advance s
    if res.2 = 0 then
      ⟨RunStatus.done, res.1, args, [PEvent.advance 0]⟩
    else
      let pulled := va_arg_ptr args res.2
      let rest := do_printf P fuel (P.push_arg res.1 pulled.1) pulled.2
      ⟨rest.status, rest.parser, rest.args,
        PEvent.advance res.2 :: PEvent.vaArg res.2 pulled.1 ::
          PEvent.pushArg pulled.1 :: rest.trace⟩

/-- Number of `printf_parser_push_arg` calls recorded in a trace: the number
of completed loop iterations. -/
def countPush (t : List PEvent) : Nat :=
  t.countP (fun e => match e with | PEvent.pushArg _ => true | _ => false)

/-- The calling protocol of the `do_printf` loop, as a predicate on traces:
a trace is either empty (fuel exhausted before the first `advance`; the C
loop itself has no such case), a single terminal `advance` returning 0, or
an `advance` returning a nonzero `r` followed by exactly one `va_arg_ptr`
pull of size `r` yielding exactly `r.toNat` bytes, exactly one `push_arg` of
those same bytes, and a well-formed continuation. -/
inductive LoopTrace : List PEvent → Prop
  | nil : LoopTrace []
  | done : LoopTrace [PEvent.advance 0]
  | step (r : Int) (b : List UInt8) (rest : List PEvent) :
      r ≠ 0 → b.length = r.toNat → LoopTrace rest →
      LoopTrace (PEvent.advance r :: PEvent.vaArg r b :: PEvent.pushArg b :: rest)

/-- A fixed scripted parser used to exercise the loop on concrete inputs:
its state is the list of `advance` results still to produce; `push_arg`
leaves the script unchanged. -/
def scriptP : ParserModel (List Int) :=
  ⟨fun s => match s with
    | [] => ([], 0)
    | r :: rs => (rs, r),
   fun s _ => s⟩

/-- An argument stream of zero bytes, for concrete runs. -/
def zeroStream : ArgStream := ⟨fun _ => 0, 0⟩

/-- Status of a run driven through the spec's ArgumentCursor: the loop can
additionally abort with `ArgumentExhausted` when a pull demands more bytes
than remain. -/
inductive CRunStatus where
  | done
  | argExhausted
  | outOfFuel
deriving DecidableEq

/-- Result of a cursor-driven run: status, final parser state, remaining
cursor bytes, and the observed event trace. -/
structure CRunOut (σ : Type) where
  status : CRunStatus
  parser : σ
  cursor : List UInt8
  trace : List PEvent

/-- Modelled from the spec: the `do_printf` driving loop over the spec's
ArgumentCursor (§4.2), whose `pull(n)` fails with `ArgumentExhausted` when
fewer than `n` bytes remain.  The C `va_arg_ptr` cannot detect exhaustion;
the cursor abstraction and its failure mode exist only in the spec, so they
are modelled from its words here.  The loop body is otherwise the same
embedding of src/fakelibc.c lines 110-122 as `do_printf`. -/
def do_printf_checked {σ : Type} (P : ParserModel σ) :
    Nat → σ → List UInt8 → CRunOut σ
  | 0, s, cur => ⟨CRunStatus.outOfFuel, s, cur, []⟩
  | fuel+1, s, cur =>
    let res := P.advance s
    if res.2 = 0 then
      ⟨CRunStatus.done, res.1, cur, [PEvent.advance 0]⟩
    else if cur.length < res.2.toNat then
      ⟨CRunStatus.argExhausted, res.1, cur, [PEvent.advance res.2]⟩
    else
      let b := cur.take res.2.toNat
      let rest := do_printf_checked P fuel (P.push_arg res.1 b) (cur.drop res.2.toNat)
      ⟨rest.status, rest.parser, rest.cursor,
        PEvent.advance res.2 :: PEvent.vaArg res.2 b :: PEvent.pushArg b :: rest.trace⟩

/-- Errors of the format interpreter, from the spec's taxonomy (§7). -/
inductive FmtError where
  | formatSyntaxError
  | unsupportedConversion
deriving DecidableEq

/-- Byte of an ASCII character. -/
def charByte (c : Char) : UInt8 := UInt8.ofNat c.toNat

/-- Outcome of one scanning pass of the format parser: format exhausted,
a format error, or an argument of the given byte width is needed for the
conversion character found, with the format characters not yet consumed. -/
inductive ScanOut where
  | fin (lit : List UInt8)
  | fail (lit : List UInt8) (e : FmtError)
  | need (restAfter : List Char) (lit : List UInt8) (conv : Char) (width : Int)
deriving DecidableEq

/-- Modelled from the spec: the scanning phase of FormatParser.advance
(§4.1), restricted to the directives the claims exercise.  Literal bytes
are copied to the sink; an escaped percent renders a literal percent and
consumes no argument; the signed decimal conversions d and i need a 4-byte
(promoted-int-width) argument; a trailing unescaped percent is a
FormatSyntaxError; any other conversion character is UnsupportedConversion. -/
def scanFmt : List Char → List UInt8 → ScanOut
  | [], lit => ScanOut.fin lit
  | ['%'], lit => ScanOut.fail lit FmtError.formatSyntaxError
  | '%' :: '%' :: cs, lit => scanFmt cs (lit ++ [charByte '%'])
  | '%' :: c :: cs, lit =>
    if c = 'd' ∨ c = 'i' then ScanOut.need cs lit c 4
    else ScanOut.fail lit FmtError.unsupportedConversion
  | c :: cs, lit => scanFmt cs (lit ++ [charByte c])

/-- State of the spec-modelled PrintfParser: the unread tail of the format
string, the bytes emitted to the sink so far, the conversion awaiting its
argument (the spec's `AwaitingArgument` mode), and a recorded format error. -/
structure PState where
  rest : List Char
  out : List UInt8
  pending : Option Char
  err : Option FmtError
deriving DecidableEq

/-- Modelled from the spec: FormatParser.advance (§4.1).  Flushes literal
text, and either reports 0 (format exhausted, or an error was recorded — the
parser's errors abort the call, surfaced through `err`) or records the
pending conversion and reports its argument byte width. -/
def pAdvance (s : PState) : PState × Int :=
  if s.err.isSome then (s, 0)
  else
    match scanFmt s.rest [] with
    | ScanOut.fin lit => ({ s with rest := [], out := s.out ++ lit }, 0)
    | ScanOut.fail lit e =>
      ({ s with rest := [], out := s.out ++ lit, err := some e }, 0)
    | ScanOut.need rest2 lit c w =>
      ({ s with rest := rest2, out := s.out ++ lit, pending := some c }, w)

/-- Little-endian value of (up to) the first four bytes. -/
def le32 (b : List UInt8) : Nat :=
  (b.take 4).reverse.foldl (fun acc x => acc * 256 + x.toNat) 0

/-- Two's-complement signed 32-bit value of four little-endian bytes. -/
def int32FromBytes (b : List UInt8) : Int :=
  let u := le32 b
  if u < 2 ^ 31 then (u : Int) else (u : Int) - 2 ^ 32

/-- Decimal rendering of a signed integer: sign, then the digits of the
magnitude (the spec's magnitude-then-sign decomposition, §4.1). -/
def renderInt (n : Int) : List UInt8 :=
  if n < 0 then charByte '-' :: (Nat.toDigits 10 (-n).toNat).map charByte
  else (Nat.toDigits 10 n.toNat).map charByte

/-- Modelled from the spec: FormatParser.push_argument (§4.1) for the
covered subset: renders the pending d/i conversion of the supplied argument
bytes into the sink and returns to scanning mode. -/
def pPushArg (s : PState) (b : List UInt8) : PState :=
  match s.pending with
  | some c =>
    if c = 'd' ∨ c = 'i' then
      { s with out := s.out ++ renderInt (int32FromBytes b), pending := none }
    else
      { s with pending := none, err := some FmtError.unsupportedConversion }
  | none => s

/-- The spec-modelled concrete PrintfParser packaged behind the abstract
interface used by the `do_printf` embedding. -/
def PrintfParserModel : ParserModel PState := ⟨pAdvance, pPushArg⟩

/-- `printf_parser_new(format)`: a fresh parser at the start of the format
string with nothing emitted, no pending conversion and no error. -/
def printf_parser_new (format : List Char) : PState := ⟨format, [], none, none⟩

/-- `printf_parser_new_with_buf(format, buf, size)`: same parser state; the
bounded buffer itself is handled by the sink model `writeBuf`. -/
def printf_parser_new_with_buf (format : List Char) : PState :=
  printf_parser_new format

/-- Modelled from the spec: the bounded OutputSink (§4.3, §6) applied to a
caller buffer.  Capacity 0 writes nothing and sets no terminator; otherwise
at most `size - 1` content bytes are written, one terminator byte follows
the last written content byte, and the rest of the buffer keeps its previous
contents. -/
def writeBuf (buf : List UInt8) (size : Nat) (out : List UInt8) : List UInt8 :=
  if size = 0 then buf
  else
    let content := out.take (size - 1)
    content ++ [0] ++ buf.drop (content.length + 1)

/-- Embedding of `vsnprintf` (src/fakelibc.c lines 78-82): builds a
PrintfParser over the caller buffer, runs `do_printf`, frees the parser, and
falls off the end of the function without a `return` statement — the value
the caller receives is indeterminate, modelled as `none`.  The interpreter,
absent from the source set, is the spec-modelled `PrintfParserModel`, driven
with fuel `format.length + 1` (§4.4: the loop is bounded by the format
length); its accumulated output reaches the buffer through the bounded sink
`writeBuf`.  On a format or argument error the call aborts with no
directive-driven output (§7). -/
def vsnprintf (buf : List UInt8) (size : Nat) (format : List Char)
    (args : List UInt8) : Option Int × List UInt8 :=
  let run := do_printf_checked PrintfParserModel (format.length + 1)
    (printf_parser_new_with_buf format) args
  if run.status = CRunStatus.done ∧ run.parser.err = none then
    (none, writeBuf buf size run.parser.out)
  else
    (none, buf)

/-- Embedding of `snprintf` (src/fakelibc.c lines 60-68): forwards its
variadic arguments to `vsnprintf` and, like it, ends without a `return`
statement. -/
def snprintf (buf : List UInt8) (size : Nat) (format : List Char)
    (args : List UInt8) : Option Int × List UInt8 :=
  vsnprintf buf size format args

/-- Observable process state of the stub layer: the global `errno` cell
(src/fakelibc.c line 102: `int errno = 0;`) and the console byte stream. -/
structure LibcState where
  errno : Int
  console : List UInt8
deriving DecidableEq

/-- Initial value of the global `errno` (src/fakelibc.c line 102). -/
def errno : Int := 0

/-- Embedding of `vfprintf` (src/fakelibc.c lines 70-76): builds a
PrintfParser for the stream sink, runs `do_printf` and frees the parser.
The parser's emitted bytes reach the console; nothing else in the process
state is touched. -/
def vfprintf (st : LibcState) (stream : Int) (format : List Char)
    (args : List UInt8) : LibcState :=
  let run := do_printf_checked PrintfParserModel (format.length + 1)
    (printf_parser_new format) args
  { st with console := st.console ++ run.parser.out }

/-- The `stdout` stream handle. -/
def stdoutHandle : Int := 1

/-- Embedding of `printf` (src/fakelibc.c lines 47-56): delegates to
`vfprintf(stdout, format, args)`. -/
def printf (st : LibcState) (format : List Char) (args : List UInt8) :
    LibcState :=
  vfprintf st stdoutHandle format args

/-- `snprintf` with the process state threaded through: the call writes only
the caller's buffer, leaving the process state untouched. -/
def snprintfS (st : LibcState) (buf : List UInt8) (size : Nat)
    (format : List Char) (args : List UInt8) :
    LibcState × (Option Int × List UInt8) :=
  (st, snprintf buf size format args)

/-- `vsnprintf` with the process state threaded through. -/
def vsnprintfS (st : LibcState) (buf : List UInt8) (size : Nat)
    (format : List Char) (args : List UInt8) :
    LibcState × (Option Int × List UInt8) :=
  (st, vsnprintf buf size format args)

/-- `do_printf` with the process state threaded through: the loop touches
only the parser and the argument list. -/
def do_printfS {σ : Type} (st : LibcState) (P : ParserModel σ) (fuel : Nat)
    (s : σ) (args : ArgStream) : LibcState × RunOut σ :=
  (st, do_printf P fuel s args)

/-- Outcome of a stub routine: a normal return or a `panic_c` fault with the
given message. -/
inductive StubResult (α : Type) where
  | ok (val : α)
  | panic_c (msg : String)

/-- src/fakelibc.c `strstr`: faults. -/
def strstr (haystack needle : String) : StubResult String :=
  StubResult.panic_c "strstr unimplemented"

/-- src/fakelibc.c `strchr`: faults. -/
def strchr (s : String) (c : Int) : StubResult String :=
  StubResult.panic_c "strchr unimplemented"

/-- src/fakelibc.c `strrchr`: faults. -/
def strrchr (s : String) (c : Int) : StubResult String :=
  StubResult.panic_c "strrchr unimplemented"

/-- src/fakelibc.c `atoi`: faults. -/
def atoi (nptr : String) : StubResult Int :=
  StubResult.panic_c "atoi unimplemented"

/-- src/fakelibc.c `atof`: faults. -/
def atof (nptr : String) : StubResult Float :=
  StubResult.panic_c "atof unimplemented"

/-- src/fakelibc.c `abs`: faults. -/
def abs (j : Int) : StubResult Int :=
  StubResult.panic_c "abs unimplemented"

/-- src/fakelibc.c `exit`: faults. -/
def exit (status : Int) : StubResult Unit :=
  StubResult.panic_c "exit unimplemented"

/-- src/fakelibc.c `fprintf`: faults. -/
def fprintf (stream : Int) (format : List Char) (args : List UInt8) :
    StubResult Int :=
  StubResult.panic_c "fprintf unimplemented"

/-- src/fakelibc.c `rename`: faults. -/
def rename (old new : String) : StubResult Int :=
  StubResult.panic_c "rename unimplemented"

/-- src/fakelibc.c `remove`: faults. -/
def remove (pathname : String) : StubResult Int :=
  StubResult.panic_c "remove unimplemented"

/-- src/fakelibc.c `sscanf`: faults. -/
def sscanf (str : String) (format : List Char) : StubResult Int :=
  StubResult.panic_c "sscanf unimplemented"

/-- src/fakelibc.c `fabs`: faults. -/
def fabs (x : Float) : StubResult Float :=
  StubResult.panic_c "fabs unimplemented"

/-- src/fakelibc.c `isspace`: faults. -/
def isspace (c : Int) : StubResult Int :=
  StubResult.panic_c "isspace unimplemented"

/-- src/fakelibc.c `system` (lines 40-43): no command can run; always
returns the failing result 1. -/
def system (command : String) : Int := 1

/-- src/fakelibc.c `mkdir` (lines 16-18): empty body; the process state is
left unchanged. -/
def mkdir (st : LibcState) (path : String) (mode : Nat) : LibcState := st

/-- src/fakelibc.c `fflush` (lines 89-91): empty body; the process state is
left unchanged. -/
def fflush (st : LibcState) (stream : Int) : LibcState := st

theorem do_printf_trace_loopTrace {σ : Type} (P : ParserModel σ) :
    ∀ (fuel : Nat) (s : σ) (args : ArgStream),
      LoopTrace (do_printf P fuel s args).trace := by
  intro fuel
  induction fuel with
  | zero => intro s args; exact LoopTrace.nil
  | succ n ih =>
    intro s args
    by_cases h : (P.advance s).2 = 0
    · simp only [do_printf, h, if_pos]
      exact LoopTrace.done
    · simp only [do_printf, h, if_neg, not_false_iff]
      exact LoopTrace.step _ _ _ h (by simp [va_arg_ptr]) (ih _ _)

theorem loopTrace_push_preceded {t : List PEvent} (ht : LoopTrace t) :
    ∀ t1 b t2, t = t1 ++ PEvent.pushArg b :: t2 →
      ∃ t0 r, r ≠ 0 ∧ t1 = t0 ++ [PEvent.advance r, PEvent.vaArg r b] := by
  induction ht with
  | nil =>
    intro t1 b t2 h
    exact absurd h.symm (by simp)
  | done =>
    intro t1 b t2 h
    rcases t1 with _ | ⟨x, t1⟩
    · simp at h
    · rcases t1 with _ | ⟨y, t1⟩ <;> simp at h
  | step r b0 rest hr hlen hrest ih =>
    intro t1 b t2 h
    rcases t1 with _ | ⟨x, t1⟩
    · simp at h
    rcases t1 with _ | ⟨y, t1⟩
    · simp at h
    rcases t1 with _ | ⟨z, t1⟩
    · simp only [List.cons_append, List.nil_append, List.cons.injEq] at h
      obtain ⟨hx, hy, hb, -⟩ := h
      refine ⟨[], r, hr, ?_⟩
      cases PEvent.pushArg.inj hb
      simp [← hx, ← hy]
    · simp only [List.cons_append, List.cons.injEq] at h
      obtain ⟨hx, hy, hz, hrest2⟩ := h
      obtain ⟨t0, r0, hr0, ht1⟩ := ih t1 b t2 hrest2
      exact ⟨x :: y :: z :: t0, r0, hr0, by simp [ht1]⟩

theorem loopTrace_zero_terminal {t : List PEvent} (ht : LoopTrace t) :
    ∀ t1 t2, t = t1 ++ PEvent.advance 0 :: t2 → t2 = [] := by
  induction ht with
  | nil =>
    intro t1 t2 h
    exact absurd h.symm (by simp)
  | done =>
    intro t1 t2 h
    rcases t1 with _ | ⟨x, t1⟩
    · simpa using h.symm
    · rcases t1 with _ | ⟨y, t1⟩ <;> simp at h
  | step r b0 rest hr hlen hrest ih =>
    intro t1 t2 h
    rcases t1 with _ | ⟨x, t1⟩
    · simp only [List.nil_append, List.cons.injEq] at h
      exact absurd (PEvent.advance.inj h.1) hr
    rcases t1 with _ | ⟨y, t1⟩
    · simp at h
    rcases t1 with _ | ⟨z, t1⟩
    · simp at h
    · simp only [List.cons_append, List.cons.injEq] at h
      exact ih t1 t2 h.2.2.2

/-- C1: for every formatting call, the `do_printf` loop repeatedly calls
`printf_parser_advance`; when the result is 0 it stops immediately (the
trace ends), and when the result is nonzero it performs exactly one
`va_arg_ptr` pull of exactly that many bytes and exactly one
`printf_parser_push_arg` of the pulled bytes before calling `advance`
again — for every abstract parser, argument stream, and fuel bound. -/
theorem do_printf_loop_protocol {σ : Type} (P : ParserModel σ)
    (fuel : Nat) (s : σ) (args : ArgStream) :
    LoopTrace (do_printf P fuel s args).trace :=
  do_printf_trace_loopTrace P fuel s args

/-- C9: in every formatting call, `printf_parser_push_arg` is never invoked
after `printf_parser_advance` has returned 0 (an `advance 0` event is always
the last event of the trace, so nothing — in particular no push — follows
it), and every `push_arg` invocation is immediately preceded by the
`va_arg_ptr` pull of an `advance` call that returned a nonzero size; there
is no zero-byte `push_arg` round trip driven by a zero `advance` result. -/
theorem do_printf_push_discipline {σ : Type} (P : ParserModel σ)
    (fuel : Nat) (s : σ) (args : ArgStream) :
    (∀ t1 b t2, (do_printf P fuel s args).trace = t1 ++ PEvent.pushArg b :: t2 →
        ∃ t0 r, r ≠ 0 ∧ t1 = t0 ++ [PEvent.advance r, PEvent.vaArg r b]) ∧
    (∀ t1 t2, (do_printf P fuel s args).trace = t1 ++ PEvent.advance 0 :: t2 →
        t2 = []) :=
  ⟨fun t1 b t2 h =>
      loopTrace_push_preceded (do_printf_trace_loopTrace P fuel s args) t1 b t2 h,
   fun t1 t2 h =>
      loopTrace_zero_terminal (do_printf_trace_loopTrace P fuel s args) t1 t2 h⟩

theorem do_printf_push_discipline_witness :
    ((do_printf scriptP 2 [4] zeroStream).trace =
      [PEvent.advance 4, PEvent.vaArg 4 [0, 0, 0, 0],
       PEvent.pushArg [0, 0, 0, 0], PEvent.advance 0]) ∧
    (∃ t0 r, r ≠ 0 ∧
      ([PEvent.advance 4, PEvent.vaArg 4 [0, 0, 0, 0]] : List PEvent) =
        t0 ++ [PEvent.advance r, PEvent.vaArg r [0, 0, 0, 0]]) :=
  ⟨by decide,
   (do_printf_push_discipline scriptP 2 [4] zeroStream).1
     [PEvent.advance 4, PEvent.vaArg 4 [0, 0, 0, 0]] [0, 0, 0, 0]
     [PEvent.advance 0] (by decide)⟩

/-- C10: the loop stops only when `printf_parser_advance` returns exactly 0.
A negative `int32_t` result is treated like any other nonzero result: the
loop performs the `va_arg_ptr` pull with that (negative) size, passes the
pulled bytes to `printf_parser_push_arg`, and continues with the next
iteration — it neither terminates nor signals an error. -/
theorem do_printf_negative_advance_continues {σ : Type} (P : ParserModel σ)
    (fuel : Nat) (s : σ) (args : ArgStream) (h : (P.advance s).2 < 0) :
    (do_printf P (fuel + 1) s args).trace =
      PEvent.advance (P.advance s).2 ::
      PEvent.vaArg (P.advance s).2 (va_arg_ptr args (P.advance s).2).1 ::
      PEvent.pushArg (va_arg_ptr args (P.advance s).2).1 ::
      (do_printf P fuel (P.push_arg (P.advance s).1 (va_arg_ptr args (P.advance s).2).1)
        (va_arg_ptr args (P.advance s).2).2).trace ∧
    (do_printf P (fuel + 1) s args).status =
      (do_printf P fuel (P.push_arg (P.advance s).1 (va_arg_ptr args (P.advance s).2).1)
        (va_arg_ptr args (P.advance s).2).2).status := by
  have hne : (P.advance s).2 ≠ 0 := h.ne
  simp only [do_printf, hne, if_neg, not_false_iff, if_false]
  exact ⟨trivial, trivial⟩

theorem do_printf_negative_advance_continues_witness :
    ((scriptP.advance [-1]).2 < 0) ∧
    ((do_printf scriptP 2 [-1] zeroStream).trace =
      PEvent.advance (-1) :: PEvent.vaArg (-1) [] :: PEvent.pushArg [] ::
        (do_printf scriptP 1 [] zeroStream).trace) :=
  ⟨by decide,
   (do_printf_negative_advance_continues scriptP 1 [-1] zeroStream (by decide)).1⟩

theorem countPush_cons3 (r : Int) (b : List UInt8) (t : List PEvent) :
    countPush (PEvent.advance r :: PEvent.vaArg r b :: PEvent.pushArg b :: t) =
      countPush t + 1 := by
  simp [countPush, List.countP_cons]

theorem do_printf_completes_aux {σ : Type} (P : ParserModel σ) (μ : σ → Nat)
    (hdec : ∀ s b, (P.advance s).2 ≠ 0 →
      μ (P.push_arg (P.advance s).1 b) < μ s) :
    ∀ (fuel : Nat) (s : σ) (args : ArgStream), μ s < fuel →
      (do_printf P fuel s args).status = RunStatus.done ∧
      countPush (do_printf P fuel s args).trace ≤ μ s := by
  intro fuel
  induction fuel with
  | zero => intro s args h; omega
  | succ n ih =>
    intro s args h
    by_cases h0 : (P.advance s).2 = 0
    · simp [do_printf, h0, countPush]
    · have hd := hdec s (va_arg_ptr args (P.advance s).2).1 h0
      have hrest := ih (P.push_arg (P.advance s).1 (va_arg_ptr args (P.advance s).2).1)
        (va_arg_ptr args (P.advance s).2).2 (by omega)
      simp only [do_printf, h0, if_neg, not_false_iff, if_false]
      refine ⟨hrest.1, ?_⟩
      rw [countPush_cons3]
      omega

/-- C4: for every parser obeying the spec's progress contract — a measure,
bounded by the format-string length, that strictly decreases across every
loop iteration whose `advance` result is nonzero (§4.4: each iteration
consumes at least one directive of the format string) — the `do_printf`
loop terminates: with fuel one more than the format length the run reaches
the `advance() = 0` break, and the number of completed loop iterations
(`push_arg` calls) is bounded above by the format-string length. -/
theorem do_printf_terminates_bounded {σ : Type} (P : ParserModel σ)
    (μ : σ → Nat) (s : σ) (args : ArgStream) (L : Nat)
    (hdec : ∀ s b, (P.advance s).2 ≠ 0 →
      μ (P.push_arg (P.advance s).1 b) < μ s)
    (hL : μ s ≤ L) :
    (do_printf P (L + 1) s args).status = RunStatus.done ∧
    countPush (do_printf P (L + 1) s args).trace ≤ L := by
  have h := do_printf_completes_aux P μ hdec (L + 1) s args (by omega)
  exact ⟨h.1, h.2.trans hL⟩

theorem do_printf_terminates_bounded_witness :
    (do_printf scriptP 2 [5] zeroStream).status = RunStatus.done ∧
    countPush (do_printf scriptP 2 [5] zeroStream).trace ≤ 1 :=
  do_printf_terminates_bounded scriptP List.length [5] zeroStream 1
    (fun s b h => by
      cases s with
      | nil => simp [scriptP] at h
      | cons r rs => simp [scriptP])
    (by decide)

theorem checked_done_ends_zero {σ : Type} (P : ParserModel σ) :
    ∀ (fuel : Nat) (s : σ) (cur : List UInt8),
      (do_printf_checked P fuel s cur).status = CRunStatus.done →
      ∃ t, (do_printf_checked P fuel s cur).trace = t ++ [PEvent.advance 0] := by
  intro fuel
  induction fuel with
  | zero => intro s cur h; simp [do_printf_checked] at h
  | succ n ih =>
    intro s cur h
    by_cases h0 : (P.advance s).2 = 0
    · exact ⟨[], by simp [do_printf_checked, h0]⟩
    · by_cases hx : cur.length < (P.advance s).2.toNat
      · simp [do_printf_checked, h0, hx] at h
      · simp only [do_printf_checked, h0, hx, if_neg, not_false_iff, if_false] at h ⊢
        obtain ⟨t, ht⟩ := ih _ _ h
        exact ⟨PEvent.advance (P.advance s).2 ::
          PEvent.vaArg (P.advance s).2 (cur.take (P.advance s).2.toNat) ::
          PEvent.pushArg (cur.take (P.advance s).2.toNat) :: t, by simp [ht]⟩

theorem checked_exhausted_ends {σ : Type} (P : ParserModel σ) :
    ∀ (fuel : Nat) (s : σ) (cur : List UInt8),
      (do_printf_checked P fuel s cur).status = CRunStatus.argExhausted →
      ∃ t r, (do_printf_checked P fuel s cur).trace = t ++ [PEvent.advance r] ∧
        r ≠ 0 ∧ (do_printf_checked P fuel s cur).cursor.length < r.toNat := by
  intro fuel
  induction fuel with
  | zero => intro s cur h; simp [do_printf_checked] at h
  | succ n ih =>
    intro s cur h
    by_cases h0 : (P.advance s).2 = 0
    · simp [do_printf_checked, h0] at h
    · by_cases hx : cur.length < (P.advance s).2.toNat
      · refine ⟨[], (P.advance s).2, ?_, h0, ?_⟩ <;>
          simp [do_printf_checked, h0, hx]
      · simp only [do_printf_checked, h0, hx, if_neg, not_false_iff, if_false] at h ⊢
        obtain ⟨t, r, ht, hr, hc⟩ := ih _ _ h
        exact ⟨PEvent.advance (P.advance s).2 ::
          PEvent.vaArg (P.advance s).2 (cur.take (P.advance s).2.toNat) ::
          PEvent.pushArg (cur.take (P.advance s).2.toNat) :: t, r,
          by simp [ht], hr, hc⟩

/-- C5: a formatting call raises `ArgumentExhausted` if and only if the loop
reaches a directive requiring an argument (an `advance` call returning a
nonzero byte width) when the argument cursor no longer holds that many
bytes; and when it is raised, the call aborts immediately — the failing
`advance` is the last event of the trace, so no pull, no `push_arg` and no
directive-driven rendering follow it.  Stated for every run that does not
run out of fuel (fuel is an artifact of the embedding). -/
theorem do_printf_argument_exhausted_iff {σ : Type} (P : ParserModel σ)
    (fuel : Nat) (s : σ) (cur : List UInt8)
    (h : (do_printf_checked P fuel s cur).status ≠ CRunStatus.outOfFuel) :
    (do_printf_checked P fuel s cur).status = CRunStatus.argExhausted ↔
      ∃ t r, (do_printf_checked P fuel s cur).trace = t ++ [PEvent.advance r] ∧
        r ≠ 0 ∧ (do_printf_checked P fuel s cur).cursor.length < r.toNat := by
  constructor
  · exact checked_exhausted_ends P fuel s cur
  · rintro ⟨t, r, htr, hr, -⟩
    rcases hst : (do_printf_checked P fuel s cur).status with h1 | h1 | h1
    · exfalso
      obtain ⟨t0, ht0⟩ := checked_done_ends_zero P fuel s cur hst
      have h1 : (do_printf_checked P fuel s cur).trace.getLast? =
          some (PEvent.advance r) := by
        rw [htr]; simp [List.getLast?_append_cons]
      have h2 : (do_printf_checked P fuel s cur).trace.getLast? =
          some (PEvent.advance 0) := by
        rw [ht0]; simp [List.getLast?_append_cons]
      have hlast : some (PEvent.advance r) = some (PEvent.advance 0) := by
        rw [← h1, h2]
      exact hr (PEvent.advance.inj (Option.some.inj hlast))
    · rfl
    · exact absurd hst h

theorem do_printf_argument_exhausted_iff_witness :
    (do_printf_checked scriptP 1 [4] ([] : List UInt8)).status ≠
      CRunStatus.outOfFuel ∧
    ((do_printf_checked scriptP 1 [4] ([] : List UInt8)).status =
        CRunStatus.argExhausted ↔
      ∃ t r, (do_printf_checked scriptP 1 [4] ([] : List UInt8)).trace =
          t ++ [PEvent.advance r] ∧ r ≠ 0 ∧
        (do_printf_checked scriptP 1 [4] ([] : List UInt8)).cursor.length <
          r.toNat) :=
  ⟨by decide, do_printf_argument_exhausted_iff scriptP 1 [4] [] (by decide)⟩

/-- C2, evaluated at the failing input: `vsnprintf` with buffer size `S` and
would-be output length `L = 20` (format key_multi_msgplayer followed by the
i directive, argument 3).  The spec-modelled bounded sink writes exactly
min(L, S-1) content bytes followed by one terminator when S is positive
(S = 5: the four bytes of key_ then the terminator; S = 1: the terminator
only) and nothing at capacity 0, and the logical length is 20 — but the C
`vsnprintf` (src/fakelibc.c lines 78-82) ends without a `return` statement,
so the call does not return L: the value the caller receives is
indeterminate, modelled here as `none`. -/
theorem vsnprintf_bounded_eval :
    (vsnprintf (List.replicate 8 (charByte '.')) 5
        ("key_multi_msgplayer%i".toList) [3, 0, 0, 0]).2 =
      ("key_".toList.map charByte) ++ 0 :: List.replicate 3 (charByte '.') ∧
    (vsnprintf (List.replicate 8 (charByte '.')) 0
        ("key_multi_msgplayer%i".toList) [3, 0, 0, 0]).2 =
      List.replicate 8 (charByte '.') ∧
    (vsnprintf (List.replicate 8 (charByte '.')) 1
        ("key_multi_msgplayer%i".toList) [3, 0, 0, 0]).2 =
      0 :: List.replicate 7 (charByte '.') ∧
    (do_printf_checked PrintfParserModel 22
        (printf_parser_new ("key_multi_msgplayer%i".toList))
        [3, 0, 0, 0]).parser.out.length = 20 ∧
    (vsnprintf (List.replicate 8 (charByte '.')) 5
        ("key_multi_msgplayer%i".toList) [3, 0, 0, 0]).1 = none := by
  decide

/-- C3, evaluated: `snprintf` into a 32-byte buffer pre-filled with dots,
format key_multi_msgplayer followed by the i directive, single argument 3.
The spec-modelled interpreter writes the 20 content bytes of
key_multi_msgplayer3 followed by one terminator byte (the remaining 11
bytes keep their previous contents) — but the C `snprintf`/`vsnprintf`
(src/fakelibc.c lines 60-68 and 78-82) end without a `return` statement,
so the call does not return the logical length 20: the value the caller
receives is indeterminate, modelled here as `none`. -/
theorem snprintf_test_eval :
    (snprintf (List.replicate 32 (charByte '.')) 32
        ("key_multi_msgplayer%i".toList) [3, 0, 0, 0]).2 =
      ("key_multi_msgplayer3".toList.map charByte) ++
        0 :: List.replicate 11 (charByte '.') ∧
    ("key_multi_msgplayer3".toList.map charByte).length = 20 ∧
    (snprintf (List.replicate 32 (charByte '.')) 32
        ("key_multi_msgplayer%i".toList) [3, 0, 0, 0]).1 = none := by
  decide

/-- C6: no formatting call reads or writes the global `errno` cell: with
the process state (the `errno` cell and the console stream) threaded
through each embedded entry point, the `errno` field after `printf`,
`vfprintf`, `snprintf`, `vsnprintf` and `do_printf` equals its value
before the call, for every input. -/
theorem formatting_preserves_errno :
    ∀ (st : LibcState) (format : List Char) (args : List UInt8)
      (stream : Int) (buf : List UInt8) (size : Nat)
      {σ : Type} (P : ParserModel σ) (fuel : Nat) (ps : σ) (as2 : ArgStream),
      (printf st format args).errno = st.errno ∧
      (vfprintf st stream format args).errno = st.errno ∧
      (snprintfS st buf size format args).1.errno = st.errno ∧
      (vsnprintfS st buf size format args).1.errno = st.errno ∧
      (do_printfS st P fuel ps as2).1.errno = st.errno := by
  intro st format args stream buf size σ P fuel ps as2
  exact ⟨rfl, rfl, rfl, rfl, rfl⟩

/-- C7: every unimplemented stub routine faults on every invocation with a
`panic_c` call carrying its unimplemented message, and does nothing else:
each embedded stub is the constant function returning that fault. -/
theorem stubs_panic_unimplemented :
    ∀ (h n s nptr old new pathname str : String)
      (c j status iscArg streamH : Int) (x : Float)
      (fmt : List Char) (args : List UInt8),
      strstr h n = StubResult.panic_c "strstr unimplemented" ∧
      strchr s c = StubResult.panic_c "strchr unimplemented" ∧
      strrchr s c = StubResult.panic_c "strrchr unimplemented" ∧
      atoi nptr = StubResult.panic_c "atoi unimplemented" ∧
      atof nptr = StubResult.panic_c "atof unimplemented" ∧
      abs j = StubResult.panic_c "abs unimplemented" ∧
      exit status = StubResult.panic_c "exit unimplemented" ∧
      fprintf streamH fmt args = StubResult.panic_c "fprintf unimplemented" ∧
      rename old new = StubResult.panic_c "rename unimplemented" ∧
      remove pathname = StubResult.panic_c "remove unimplemented" ∧
      sscanf str fmt = StubResult.panic_c "sscanf unimplemented" ∧
      fabs x = StubResult.panic_c "fabs unimplemented" ∧
      isspace iscArg = StubResult.panic_c "isspace unimplemented" := by
  intros
  exact ⟨rfl, rfl, rfl, rfl, rfl, rfl, rfl, rfl, rfl, rfl, rfl, rfl, rfl⟩

/-- C8: the stub boundary is fixed: `system` returns the nonzero (failing)
result 1 for every command string, and `mkdir` and `fflush` are no-ops that
leave the observable process state unchanged for every input. -/
theorem stub_boundary_fixed :
    ∀ (command : String) (st : LibcState) (path : String) (mode : Nat)
      (stream : Int),
      system command = 1 ∧ system command ≠ 0 ∧
      mkdir st path mode = st ∧ fflush st stream = st := by
  intros
  refine ⟨rfl, ?_, rfl, rfl⟩
  intro hzero
  simp [system] at hzero

theorem stub_boundary_fixed_witness :
    system "doom" = 1 ∧ system "doom" ≠ 0 ∧
    mkdir ⟨0, []⟩ "tmp" 0 = (⟨0, []⟩ : LibcState) ∧
    fflush ⟨0, []⟩ 1 = (⟨0, []⟩ : LibcState) :=
  stub_boundary_fixed "doom" ⟨0, []⟩ "tmp" 0 1

end StreamOS
